import Mathlib

/-!
Verification development for the astrology API in `main.py`.

Numbers: the Python code computes with IEEE floats; we embed the arithmetic
over `ℚ` (exact rationals), which is the standard shallow embedding when the
specification speaks of results "within floating-point tolerance".
Dates: the transit scan iterates `datetime` values one day at a time; we
model a scanned date as its day offset (a `ℕ`) from Jan 1 of `start_year`:
`datetime + k*timedelta(days=1)` is strictly increasing in `k`, so the order
on offsets is the order on dates.
-/

namespace AstroApi

/-- Model of `ZODIAC_SIGNS` from `main.py`. -/
def ZODIAC_SIGNS : List String :=
  ["Aries", "Taurus", "Gemini", "Cancer", "Leo", "Virgo",
   "Libra", "Scorpio", "Sagittarius", "Capricorn", "Aquarius", "Pisces"]

/-- The keys of `PLANET_MAPPING` from `main.py` (the set of recognized bodies);
the ephemeris classes the keys map to are external capabilities, modelled
elsewhere as functions supplied to the endpoints. -/
def PLANET_NAMES : List String :=
  ["sun", "moon", "mercury", "venus", "mars", "jupiter",
   "saturn", "uranus", "neptune", "pluto"]

/-- Python `str.lower()` (character-wise lowering, as `String.toLower` does;
written structurally over the character list). -/
def pyLower (s : String) : String := ⟨s.data.map Char.toLower⟩

/-- Python `str.title()` restricted to single-word strings, which is the only
use in `main.py` (planet and sign names). -/
def pyTitle (s : String) : String := (pyLower s).capitalize

/-- Python `int(q)` on a real value: truncation toward zero. -/
def truncQ (q : ℚ) : ℤ := if 0 ≤ q then ⌊q⌋ else -⌊-q⌋

/-- Python `a % b` on reals (for `b > 0`): `a - b*floor(a/b)`. -/
def pymod (a b : ℚ) : ℚ := a - b * ⌊a / b⌋

/-- Round a rational to the nearest integer, ties to even — the rounding mode
of Python's built-in `round`. -/
def rnd (q : ℚ) : ℤ :=
  if q - ⌊q⌋ < 1/2 then ⌊q⌋
  else if 1/2 < q - ⌊q⌋ then ⌊q⌋ + 1
  else if ⌊q⌋ % 2 = 0 then ⌊q⌋ else ⌊q⌋ + 1

/-- Python `round(q, n)` for `n` decimal places. -/
def round_to (n : ℕ) (q : ℚ) : ℚ := (rnd (q * 10 ^ n) : ℚ) / 10 ^ n

/-- Model of `round(q, 4)` as used throughout `main.py`. -/
def round4 (q : ℚ) : ℚ := round_to 4 q

/-- Model of `round(q, 2)` as used in `calculate_aspects`. -/
def round2 (q : ℚ) : ℚ := round_to 2 q

/-- The sign index computed inside `get_sign_details`:
`int((longitude % 360) / 30)`. -/
def signIndex (longitude : ℚ) : ℤ := truncQ (pymod longitude 360 / 30)

/-- Model of `get_sign_details` from `main.py`: normalize the longitude modulo 360,
bucket into one of the 12 signs, and return the sign name together with the
degree within the sign.  (`ZODIAC_SIGNS[sign_index]` is in-bounds list
indexing in the source; we use `getD` and prove the index is in `[0,11]`.) -/
def get_sign_details (longitude : ℚ) : String × ℚ :=
  (ZODIAC_SIGNS.getD (truncQ (pymod longitude 360 / 30)).toNat "",
   pymod (pymod longitude 360) 30)

/-! ### Arithmetic lemmas about `pymod`, `truncQ`, `rnd` -/

theorem pymod_nonneg (a : ℚ) {b : ℚ} (hb : 0 < b) : 0 ≤ pymod a b := by
  have h1 : (⌊a / b⌋ : ℚ) ≤ a / b := Int.floor_le _
  have h2 : b * (⌊a / b⌋ : ℚ) ≤ b * (a / b) :=
    mul_le_mul_of_nonneg_left h1 (le_of_lt hb)
  have h3 : b * (a / b) = a := by field_simp
  unfold pymod
  linarith

theorem pymod_lt (a : ℚ) {b : ℚ} (hb : 0 < b) : pymod a b < b := by
  have h1 : a / b < (⌊a / b⌋ : ℚ) + 1 := Int.lt_floor_add_one _
  have h2 : b * (a / b) < b * ((⌊a / b⌋ : ℚ) + 1) :=
    mul_lt_mul_of_pos_left h1 hb
  have h3 : b * (a / b) = a := by field_simp
  unfold pymod
  nlinarith

/-- Characterization of `pymod` when the enclosing multiple of `b` is known. -/
theorem pymod_eq_of_bounds (a b : ℚ) (k : ℤ) (hb : 0 < b)
    (h0 : b * k ≤ a) (h1 : a < b * (k + 1)) : pymod a b = a - b * k := by
  have hfl : ⌊a / b⌋ = k := by
    rw [Int.floor_eq_iff]
    constructor
    · rw [le_div_iff₀ hb]
      linarith
    · rw [div_lt_iff₀ hb]
      linarith
  unfold pymod
  rw [hfl]

theorem pymod_eq_self {a b : ℚ} (hb : 0 < b) (h0 : 0 ≤ a) (h1 : a < b) :
    pymod a b = a := by
  have h := pymod_eq_of_bounds a b 0 hb (by simpa using h0) (by push_cast; linarith)
  simpa using h

theorem pymod_add_int_mul (a b : ℚ) (k : ℤ) :
    pymod (a + b * k) b = pymod a b := by
  unfold pymod
  by_cases hb : b = 0
  · simp [hb]
  · have h : (a + b * k) / b = a / b + k := by field_simp; ring
    rw [h, Int.floor_add_int]
    push_cast
    ring

theorem truncQ_of_nonneg {q : ℚ} (h : 0 ≤ q) : truncQ q = ⌊q⌋ := if_pos h

theorem rnd_nonneg {q : ℚ} (h : 0 ≤ q) : 0 ≤ rnd q := by
  have hfl : 0 ≤ ⌊q⌋ := Int.floor_nonneg.mpr h
  unfold rnd
  split_ifs <;> omega

/-- Adding an even integer commutes with round-half-to-even. -/
theorem rnd_add_even (q : ℚ) (i : ℤ) (hi : i % 2 = 0) :
    rnd (q + i) = rnd q + i := by
  unfold rnd
  rw [Int.floor_add_int]
  have hr : q + (i : ℚ) - ((⌊q⌋ + i : ℤ) : ℚ) = q - (⌊q⌋ : ℚ) := by
    push_cast
    ring
  rw [hr]
  have hpar : (⌊q⌋ + i) % 2 = ⌊q⌋ % 2 := by omega
  rw [hpar]
  split_ifs <;> omega

theorem round_to_nonneg (n : ℕ) {q : ℚ} (h : 0 ≤ q) : 0 ≤ round_to n q := by
  unfold round_to
  have h1 : (0 : ℚ) ≤ (rnd (q * 10 ^ n) : ℚ) := by
    exact_mod_cast rnd_nonneg (by positivity)
  positivity

/-- Lemma: `round4` commutes with adding a multiple of 30 (the scaled shift
`30*j*10^4` is an even integer). -/
theorem round4_add_mul30 (q : ℚ) (j : ℤ) :
    round4 (q + 30 * j) = round4 q + 30 * j := by
  unfold round4 round_to
  have h1 : (q + 30 * (j : ℚ)) * 10 ^ 4 = q * 10 ^ 4 + ((300000 * j : ℤ) : ℚ) := by
    push_cast
    ring
  rw [h1, rnd_add_even _ _ (by omega)]
  push_cast
  ring

theorem pymod_360_360 : pymod (360 : ℚ) 360 = 0 := by
  unfold pymod
  norm_num

theorem pymod_zero_left (b : ℚ) : pymod 0 b = 0 := by
  unfold pymod
  norm_num

/-! ### C1 -/

/-- Claim C1. For every rational longitude `L` (negative values and values
`≥ 360` included), `get_sign_details` computes a sign index in `[0, 11]`, a
degree-in-sign in `[0, 30)`, the returned sign name is the `ZODIAC_SIGNS`
entry at that index, and `sign_index * 30 + degree_in_sign` reconstructs
`L mod 360` exactly (in the rational model; hence within floating-point
tolerance in the source).  In particular `L = 360` yields sign index `0`
(name `"Aries"`) and degree `0`, not index 12 or an error. -/
theorem get_sign_details_spec (L : ℚ) :
    0 ≤ signIndex L ∧ signIndex L ≤ 11 ∧
    0 ≤ (get_sign_details L).2 ∧ (get_sign_details L).2 < 30 ∧
    (signIndex L : ℚ) * 30 + (get_sign_details L).2 = pymod L 360 ∧
    (get_sign_details L).1 = ZODIAC_SIGNS.getD (signIndex L).toNat "" ∧
    signIndex 360 = 0 ∧ get_sign_details 360 = ("Aries", 0) := by
  have h360 : (0 : ℚ) < 360 := by norm_num
  have h30 : (0 : ℚ) < 30 := by norm_num
  have hl0 : 0 ≤ pymod L 360 := pymod_nonneg L h360
  have hl1 : pymod L 360 < 360 := pymod_lt L h360
  have hdiv0 : 0 ≤ pymod L 360 / 30 := by positivity
  have hidx : signIndex L = ⌊pymod L 360 / 30⌋ := by
    unfold signIndex
    rw [truncQ_of_nonneg hdiv0]
  have hfl0 : 0 ≤ ⌊pymod L 360 / 30⌋ := Int.floor_nonneg.mpr hdiv0
  have hfl11 : ⌊pymod L 360 / 30⌋ ≤ 11 := by
    have h12 : ⌊pymod L 360 / 30⌋ < 12 := by
      apply Int.floor_lt.mpr
      rw [div_lt_iff₀ h30]
      push_cast
      linarith
    omega
  have hfloor_le : (⌊pymod L 360 / 30⌋ : ℚ) * 30 ≤ pymod L 360 := by
    have h := Int.floor_le (pymod L 360 / 30)
    have h2 := mul_le_mul_of_nonneg_right h (le_of_lt h30)
    calc (⌊pymod L 360 / 30⌋ : ℚ) * 30 ≤ (pymod L 360 / 30) * 30 := h2
      _ = pymod L 360 := by field_simp
  have hfloor_lt : pymod L 360 < ((⌊pymod L 360 / 30⌋ : ℚ) + 1) * 30 := by
    have h := Int.lt_floor_add_one (pymod L 360 / 30)
    have h2 := mul_lt_mul_of_pos_right h h30
    calc pymod L 360 = (pymod L 360 / 30) * 30 := by field_simp
      _ < ((⌊pymod L 360 / 30⌋ : ℚ) + 1) * 30 := h2
  have hmod30 : pymod (pymod L 360) 30 = pymod L 360 - 30 * (⌊pymod L 360 / 30⌋ : ℚ) :=
    pymod_eq_of_bounds (pymod L 360) 30 ⌊pymod L 360 / 30⌋ h30 (by linarith) (by linarith)
  have hdeg : (get_sign_details L).2 = pymod L 360 - 30 * (⌊pymod L 360 / 30⌋ : ℚ) := hmod30
  have hsignname : (get_sign_details L).1 = ZODIAC_SIGNS.getD (signIndex L).toNat "" := rfl
  have h360idx : signIndex (360 : ℚ) = 0 := by
    unfold signIndex
    rw [pymod_360_360]
    norm_num [truncQ]
  have h360details : get_sign_details (360 : ℚ) = ("Aries", 0) := by
    unfold get_sign_details
    rw [pymod_360_360]
    norm_num [truncQ, pymod_zero_left, ZODIAC_SIGNS]
  refine ⟨by rw [hidx]; exact_mod_cast hfl0,
          by rw [hidx]; exact_mod_cast hfl11,
          by rw [hdeg]; linarith,
          by rw [hdeg]; linarith,
          ?_, hsignname, h360idx, h360details⟩
  rw [hidx, hdeg]
  ring

/-! ### Aspects (`calculate_aspects` in `main.py`) -/

/-- The `PlanetPosition` pydantic model. -/
structure PlanetPosition where
  name : String
  longitude : ℚ
  sign : String
  degree_in_sign : ℚ
  is_retrograde : Bool
  house : ℕ
  deriving Repr

/-- The `Aspect` pydantic model. -/
structure Aspect where
  planet1 : String
  planet2 : String
  type : String
  orb : ℚ
  angle : ℚ
  deriving Repr

/-- The separation computed in `calculate_aspects`:
`angle_diff = min(abs(p1.longitude - p2.longitude), 360 - abs(...))`. -/
def angularSep (a b : ℚ) : ℚ := min |a - b| (360 - |a - b|)

/-- The inner aspect-matching loop of `calculate_aspects` for one ordered
pair: iterate the `major_aspects` dict in insertion order (Conjunction 0°±8,
Sextile 60°±6, Square 90°±8, Trine 120°±8, Opposition 180°±8) and append an
`Aspect` whenever `abs(angle_diff - ideal) <= orb`. -/
def aspectsForPair (p1 p2 : PlanetPosition) : List Aspect :=
  (if |angularSep p1.longitude p2.longitude - 0| ≤ 8 then
    [⟨p1.name, p2.name, "Conjunction", round2 |angularSep p1.longitude p2.longitude - 0|,
      round2 (angularSep p1.longitude p2.longitude)⟩] else []) ++
  (if |angularSep p1.longitude p2.longitude - 60| ≤ 6 then
    [⟨p1.name, p2.name, "Sextile", round2 |angularSep p1.longitude p2.longitude - 60|,
      round2 (angularSep p1.longitude p2.longitude)⟩] else []) ++
  (if |angularSep p1.longitude p2.longitude - 90| ≤ 8 then
    [⟨p1.name, p2.name, "Square", round2 |angularSep p1.longitude p2.longitude - 90|,
      round2 (angularSep p1.longitude p2.longitude)⟩] else []) ++
  (if |angularSep p1.longitude p2.longitude - 120| ≤ 8 then
    [⟨p1.name, p2.name, "Trine", round2 |angularSep p1.longitude p2.longitude - 120|,
      round2 (angularSep p1.longitude p2.longitude)⟩] else []) ++
  (if |angularSep p1.longitude p2.longitude - 180| ≤ 8 then
    [⟨p1.name, p2.name, "Opposition", round2 |angularSep p1.longitude p2.longitude - 180|,
      round2 (angularSep p1.longitude p2.longitude)⟩] else [])

/-- Model of `calculate_aspects` from `main.py`: the double loop
`for i in range(n): for j in range(i+1, n)` visits each unordered pair once,
in order, delegating to the aspect-matching inner loop. -/
def calculate_aspects : List PlanetPosition → List Aspect
  | [] => []
  | p :: rest => (rest.map (aspectsForPair p)).flatten ++ calculate_aspects rest

theorem rnd_intCast (i : ℤ) : rnd (i : ℚ) = i := by
  unfold rnd
  rw [Int.floor_intCast]
  norm_num

theorem round_to_intCast (n : ℕ) (i : ℤ) : round_to n (i : ℚ) = i := by
  unfold round_to
  have h : (i : ℚ) * 10 ^ n = ((i * 10 ^ n : ℤ) : ℚ) := by push_cast; ring
  rw [h, rnd_intCast]
  push_cast
  have hn : ((10 : ℚ) ^ n) ≠ 0 := by positivity
  field_simp

theorem round2_ofNat (n : ℕ) : round2 (n : ℚ) = n := by
  have h := round_to_intCast 2 (n : ℤ)
  unfold round2
  push_cast at h
  exact h

/-! ### C4 -/

/-- Claim C4. In `calculate_aspects`, for a pair of bodies whose angular
separation is exactly 90° the output is exactly one Square aspect with orb
0.00 (and angle 90); at 95° it is exactly one Square aspect with orb 5.00;
at 100° no Square aspect (indeed no aspect at all) is emitted. -/
theorem calculate_aspects_square_cases
    (p1 p2 p3 p4 p5 p6 : PlanetPosition)
    (h90 : angularSep p1.longitude p2.longitude = 90)
    (h95 : angularSep p3.longitude p4.longitude = 95)
    (h100 : angularSep p5.longitude p6.longitude = 100) :
    calculate_aspects [p1, p2] = [⟨p1.name, p2.name, "Square", 0, 90⟩] ∧
    calculate_aspects [p3, p4] = [⟨p3.name, p4.name, "Square", 5, 95⟩] ∧
    calculate_aspects [p5, p6] = [] := by
  have e0 : round2 ((0 : ℕ) : ℚ) = 0 := round2_ofNat 0
  have e5 : round2 ((5 : ℕ) : ℚ) = 5 := round2_ofNat 5
  have e90 : round2 ((90 : ℕ) : ℚ) = 90 := round2_ofNat 90
  have e95 : round2 ((95 : ℕ) : ℚ) = 95 := round2_ofNat 95
  push_cast at e0 e5 e90 e95
  refine ⟨?_, ?_, ?_⟩ <;>
    simp only [calculate_aspects, aspectsForPair, h90, h95, h100, List.map_cons,
      List.map_nil, List.flatten, List.append_nil, List.nil_append] <;>
    norm_num [e0, e5, e90, e95]

/-- Witness for C4 at concrete positions 0°/90°, 0°/95°, 0°/100°. -/
theorem calculate_aspects_square_cases_witness :
    calculate_aspects [⟨"A", 0, "", 0, false, 1⟩, ⟨"B", 90, "", 0, false, 1⟩] =
      [⟨"A", "B", "Square", 0, 90⟩] ∧
    calculate_aspects [⟨"A", 0, "", 0, false, 1⟩, ⟨"B", 95, "", 0, false, 1⟩] =
      [⟨"A", "B", "Square", 5, 95⟩] ∧
    calculate_aspects [⟨"A", 0, "", 0, false, 1⟩, ⟨"B", 100, "", 0, false, 1⟩] = [] :=
  calculate_aspects_square_cases
    ⟨"A", 0, "", 0, false, 1⟩ ⟨"B", 90, "", 0, false, 1⟩
    ⟨"A", 0, "", 0, false, 1⟩ ⟨"B", 95, "", 0, false, 1⟩
    ⟨"A", 0, "", 0, false, 1⟩ ⟨"B", 100, "", 0, false, 1⟩
    (by norm_num [angularSep]) (by norm_num [angularSep]) (by norm_num [angularSep])

/-! ### C9 -/

/-- Claim C9. For every pair of bodies the aspect-matching loop emits at most
one `Aspect` record: the five acceptance intervals (`[-8,8]`, `[54,66]`,
`[82,98]`, `[112,128]`, `[172,188]` for the separation) are pairwise
disjoint, so no separation matches two aspect types; consequently
`calculate_aspects` on a two-body chart returns at most one record. -/
theorem calculate_aspects_at_most_one_per_pair (p1 p2 : PlanetPosition) :
    (aspectsForPair p1 p2).length ≤ 1 ∧
    (calculate_aspects [p1, p2]).length ≤ 1 := by
  have h : (aspectsForPair p1 p2).length ≤ 1 := by
    unfold aspectsForPair
    split_ifs <;> simp_all [abs_le] <;> linarith
  refine ⟨h, ?_⟩
  simpa [calculate_aspects] using h

/-! ### Transit scan (`constellation_search` in `main.py`)

The external ephemeris capability is modelled as a function `f : ℕ → ℚ`
giving `math.degrees(planet.ra)` for the scanned day at each day offset.
The HTTP error raised (`HTTPException(400)`, or an unhandled `ValueError`
from `datetime(...)` that FastAPI surfaces as a 500 response) is modelled as
`Except.error` carrying the status code. -/

/-- The `CelestialBodyPosition` pydantic model. -/
structure CelestialBodyPosition where
  name : String
  longitude : ℚ
  sign : String
  degree_in_sign : ℚ
  is_retrograde : Bool
  deriving Repr

/-- The `ConstellationSearchResult` pydantic model; `date` is the day offset
from Jan 1 of `start_year` (see the file header). -/
structure ConstellationSearchResult where
  date : ℕ
  description : String
  celestial_bodies : List CelestialBodyPosition
  deriving Repr

/-- The `ConstellationSearchOutput` pydantic model. -/
structure ConstellationSearchOutput where
  status : String
  results : List ConstellationSearchResult
  deriving Repr

/-- The `ConstellationSearchInput` pydantic model.  (Pydantic validates
`limit` into `[1, 100]` before the handler runs; theorems that need it take
it as a hypothesis.) -/
structure ConstellationSearchInput where
  star_name : String
  sign_name : String
  start_year : ℤ
  end_year : ℤ
  limit : ℕ

/-- The item appended by `constellation_search` when a transit is detected
on day `k`: `CelestialBodyPosition(... is_retrograde=(longitude < last_longitude))`
wrapped in a `ConstellationSearchResult` dated that day. -/
def scanItem (f : ℕ → ℚ) (star sign : String) (k : ℕ) (lastLon : ℚ) :
    ConstellationSearchResult :=
  ⟨k, star ++ " entered " ++ sign,
   [⟨star, round4 (f k), (get_sign_details (f k)).1,
     round4 ((get_sign_details (f k)).2), decide (f k < lastLon)⟩]⟩

/-- The `while current_dt < end_dt` loop of `constellation_search`: `fuel` is
the number of remaining days, `k` the current day offset, `lastSign` and
`lastLon` the `last_sign_id` / `last_longitude` state (seeded `-1` / `-1.0`),
`acc` the `results_found` list.  Each day computes
`current_sign_id = int(longitude / 30)` from the raw longitude, emits when
the bucket equals the target and the previous bucket did not, and stops when
`limit` results have accumulated. -/
def scanLoop (f : ℕ → ℚ) (target : ℤ) (limit : ℕ) (star sign : String) :
    ℕ → ℕ → ℤ → ℚ → List ConstellationSearchResult → List ConstellationSearchResult
  | 0, _, _, _, acc => acc
  | fuel + 1, k, lastSign, lastLon, acc =>
    if truncQ (f k / 30) = target ∧ lastSign ≠ target then
      if limit ≤ (acc ++ [scanItem f star sign k lastLon]).length then
        acc ++ [scanItem f star sign k lastLon]
      else
        scanLoop f target limit star sign fuel (k + 1) (truncQ (f k / 30)) (f k)
          (acc ++ [scanItem f star sign k lastLon])
    else
      scanLoop f target limit star sign fuel (k + 1) (truncQ (f k / 30)) (f k) acc

/-- Python's Gregorian leap-year rule, as used by `datetime`/`timedelta`
arithmetic. -/
def isLeap (y : ℤ) : Bool := (y % 4 == 0 && y % 100 != 0) || (y % 400 == 0)

def daysInYear (y : ℤ) : ℕ := if isLeap y then 366 else 365

/-- The number of iterations of `while current_dt < end_dt` when stepping
one day at a time from `datetime(s, 1, 1)` (exclusive upper bound
`datetime(e + 1, 1, 1)`): the day count of years `s..e`, and `0` when
`e < s` (the loop condition fails immediately). -/
def numDays (s e : ℤ) : ℕ :=
  if s ≤ e then ((List.range (e + 1 - s).toNat).map (fun i => daysInYear (s + i))).sum
  else 0

/-- Python `datetime(y, 1, 1)` succeeds exactly for `MINYEAR ≤ y ≤ MAXYEAR`
(`1..9999`); outside, it raises `ValueError`. -/
def datetimeYearOK (y : ℤ) : Bool := decide (1 ≤ y) && decide (y ≤ 9999)

/-- Model of `constellation_search` from `main.py`, parameterized by the ephemeris
capability `f`.  Validation: unknown body or sign name raises
`HTTPException(400)`; a year for which `datetime(year, 1, 1)` raises
`ValueError` yields FastAPI's 500 response (the handler has no try/except). -/
def constellation_search (input : ConstellationSearchInput) (f : ℕ → ℚ) :
    Except ℕ ConstellationSearchOutput :=
  if PLANET_NAMES.contains (pyLower input.star_name) = true then
    if (ZODIAC_SIGNS.map pyLower).contains (pyLower input.sign_name) = true then
      if datetimeYearOK input.start_year = true then
        if datetimeYearOK (input.end_year + 1) = true then
          .ok ⟨"success",
            scanLoop f ((ZODIAC_SIGNS.map pyLower).indexOf (pyLower input.sign_name) : ℤ)
              input.limit (pyTitle input.star_name) (pyTitle input.sign_name)
              (numDays input.start_year input.end_year) 0 (-1) (-1) []⟩
        else .error 500
      else .error 500
    else .error 400
  else .error 400

theorem scanLoop_zero (f : ℕ → ℚ) (target : ℤ) (limit : ℕ) (star sign : String)
    (k : ℕ) (ls : ℤ) (ll : ℚ) (acc : List ConstellationSearchResult) :
    scanLoop f target limit star sign 0 k ls ll acc = acc := rfl

theorem scanLoop_succ (f : ℕ → ℚ) (target : ℤ) (limit : ℕ) (star sign : String)
    (fuel k : ℕ) (ls : ℤ) (ll : ℚ) (acc : List ConstellationSearchResult) :
    scanLoop f target limit star sign (fuel + 1) k ls ll acc =
      if truncQ (f k / 30) = target ∧ ls ≠ target then
        if limit ≤ (acc ++ [scanItem f star sign k ll]).length then
          acc ++ [scanItem f star sign k ll]
        else
          scanLoop f target limit star sign fuel (k + 1) (truncQ (f k / 30)) (f k)
            (acc ++ [scanItem f star sign k ll])
      else
        scanLoop f target limit star sign fuel (k + 1) (truncQ (f k / 30)) (f k) acc := rfl

/-! ### C2: counterexample evaluation -/

theorem truncQ_half : truncQ ((15 : ℚ) / 30) = 0 := by
  unfold truncQ
  norm_num

theorem get_sign_details_15 : get_sign_details (15 : ℚ) = ("Aries", 15) := by
  unfold get_sign_details
  rw [pymod_eq_self (by norm_num) (by norm_num) (by norm_num),
    pymod_eq_self (by norm_num) (by norm_num) (by norm_num)]
  rw [truncQ_half]
  rfl

theorem round4_15 : round4 (15 : ℚ) = 15 := by
  have h := round_to_intCast 4 15
  unfold round4
  exact_mod_cast h

/-- Concrete evaluation of `constellation_search` for Mars/Aries over 1990
with a capability that pins the longitude at 15° every day. -/
theorem constellation_mars_aries_eval :
    constellation_search ⟨"Mars", "Aries", 1990, 1990, 1⟩ (fun _ => 15) =
      .ok ⟨"success", [⟨0, "Mars entered Aries", [⟨"Mars", 15, "Aries", 15, false⟩]⟩]⟩ := by
  have hfalse : decide ((15 : ℚ) < -1) = false := by
    have h : ¬ ((15 : ℚ) < -1) := by norm_num
    simpa using h
  have hitem : scanItem (fun _ => 15) "Mars" "Aries" 0 (-1) =
      ⟨0, "Mars entered Aries", [⟨"Mars", 15, "Aries", 15, false⟩]⟩ := by
    unfold scanItem
    dsimp only
    rw [get_sign_details_15]
    dsimp only
    rw [round4_15, hfalse]
    rfl
  have hscan : scanLoop (fun _ => 15) 0 1 "Mars" "Aries" 365 0 (-1) (-1) [] =
      [⟨0, "Mars entered Aries", [⟨"Mars", 15, "Aries", 15, false⟩]⟩] := by
    rw [show (365 : ℕ) = 364 + 1 from rfl, scanLoop_succ]
    rw [if_pos ⟨truncQ_half, by decide⟩, if_pos (by simp), List.nil_append, hitem]
  unfold constellation_search
  rw [if_pos (show PLANET_NAMES.contains (pyLower "Mars") = true from rfl),
    if_pos (show (ZODIAC_SIGNS.map pyLower).contains (pyLower "Aries") = true from rfl),
    if_pos (show datetimeYearOK 1990 = true from rfl),
    if_pos (show datetimeYearOK (1990 + 1) = true from rfl),
    show ((ZODIAC_SIGNS.map pyLower).indexOf (pyLower "Aries") : ℤ) = 0 from rfl,
    show numDays 1990 1990 = 365 from rfl,
    show pyTitle "Mars" = "Mars" from rfl, show pyTitle "Aries" = "Aries" from rfl,
    hscan]

theorem scanItem_date (f : ℕ → ℚ) (star sign : String) (k : ℕ) (ll : ℚ) :
    (scanItem f star sign k ll).date = k := rfl

/-- Every element of the scan output was either already accumulated or is
dated at or after the current day offset. -/
theorem scanLoop_mem_le (f : ℕ → ℚ) (t : ℤ) (lim : ℕ) (star sign : String) :
    ∀ (fuel k : ℕ) (ls : ℤ) (ll : ℚ) (acc : List ConstellationSearchResult)
      (ev : ConstellationSearchResult),
      ev ∈ scanLoop f t lim star sign fuel k ls ll acc → ev ∈ acc ∨ k ≤ ev.date := by
  intro fuel
  induction fuel with
  | zero =>
    intro k ls ll acc ev h
    rw [scanLoop_zero] at h
    exact Or.inl h
  | succ n ih =>
    intro k ls ll acc ev h
    rw [scanLoop_succ] at h
    by_cases hc : truncQ (f k / 30) = t ∧ ls ≠ t
    · rw [if_pos hc] at h
      by_cases hl : lim ≤ (acc ++ [scanItem f star sign k ll]).length
      · rw [if_pos hl] at h
        rcases List.mem_append.mp h with h1 | h1
        · exact Or.inl h1
        · right
          rw [List.mem_singleton.mp h1, scanItem_date]
      · rw [if_neg hl] at h
        rcases ih (k + 1) _ _ _ ev h with h1 | h1
        · rcases List.mem_append.mp h1 with h2 | h2
          · exact Or.inl h2
          · right
            rw [List.mem_singleton.mp h2, scanItem_date]
        · right
          omega
    · rw [if_neg hc] at h
      rcases ih (k + 1) _ _ _ ev h with h1 | h1
      · exact Or.inl h1
      · right
        omega

/-- Main soundness invariant of the scan loop: the output stays strictly
ascending in date, never exceeds the limit, and every element was emitted
under the target-bucket guard with its sign derived from the longitude of
its own day. -/
theorem scanLoop_sound (f : ℕ → ℚ) (t : ℤ) (lim : ℕ) (star sign : String) :
    ∀ (fuel k : ℕ) (ls : ℤ) (ll : ℚ) (acc : List ConstellationSearchResult),
      (∀ ev ∈ acc, ev.date < k) →
      acc.Pairwise (fun a b => a.date < b.date) →
      acc.length < lim →
      (∀ ev ∈ acc, truncQ (f ev.date / 30) = t ∧
        ∀ b ∈ ev.celestial_bodies, b.sign = (get_sign_details (f ev.date)).1) →
      (scanLoop f t lim star sign fuel k ls ll acc).Pairwise (fun a b => a.date < b.date) ∧
      (scanLoop f t lim star sign fuel k ls ll acc).length ≤ lim ∧
      (∀ ev ∈ scanLoop f t lim star sign fuel k ls ll acc,
        truncQ (f ev.date / 30) = t ∧
        ∀ b ∈ ev.celestial_bodies, b.sign = (get_sign_details (f ev.date)).1) := by
  intro fuel
  induction fuel with
  | zero =>
    intro k ls ll acc hdate hpw hlen hprop
    rw [scanLoop_zero]
    exact ⟨hpw, le_of_lt hlen, hprop⟩
  | succ n ih =>
    intro k ls ll acc hdate hpw hlen hprop
    rw [scanLoop_succ]
    by_cases hc : truncQ (f k / 30) = t ∧ ls ≠ t
    · rw [if_pos hc]
      have hdate' : ∀ ev ∈ acc ++ [scanItem f star sign k ll], ev.date < k + 1 := by
        intro ev hev
        rcases List.mem_append.mp hev with h1 | h1
        · exact lt_trans (hdate ev h1) (by omega)
        · rw [List.mem_singleton.mp h1, scanItem_date]
          omega
      have hpw' : (acc ++ [scanItem f star sign k ll]).Pairwise
          (fun a b => a.date < b.date) := by
        rw [List.pairwise_append]
        refine ⟨hpw, List.pairwise_singleton _ _, ?_⟩
        intro a ha b hb
        rw [List.mem_singleton.mp hb, scanItem_date]
        exact hdate a ha
      have hprop' : ∀ ev ∈ acc ++ [scanItem f star sign k ll],
          truncQ (f ev.date / 30) = t ∧
          ∀ b ∈ ev.celestial_bodies, b.sign = (get_sign_details (f ev.date)).1 := by
        intro ev hev
        rcases List.mem_append.mp hev with h1 | h1
        · exact hprop ev h1
        · rw [List.mem_singleton.mp h1]
          refine ⟨by rw [scanItem_date]; exact hc.1, ?_⟩
          intro b hb
          rw [List.mem_singleton.mp hb]
          rfl
      by_cases hl : lim ≤ (acc ++ [scanItem f star sign k ll]).length
      · rw [if_pos hl]
        have hlen' : (acc ++ [scanItem f star sign k ll]).length = acc.length + 1 := by
          simp
        exact ⟨hpw', by omega, hprop'⟩
      · rw [if_neg hl]
        exact ih (k + 1) _ _ _ hdate' hpw' (by omega) hprop'
    · rw [if_neg hc]
      exact ih (k + 1) _ _ _ (fun ev hev => lt_trans (hdate ev hev) (by omega)) hpw hlen hprop

/-- The scan loop only ever appends: a nonempty accumulator keeps its head. -/
theorem scanLoop_head (f : ℕ → ℚ) (t : ℤ) (lim : ℕ) (star sign : String) :
    ∀ (fuel k : ℕ) (ls : ℤ) (ll : ℚ) (acc : List ConstellationSearchResult),
      acc ≠ [] → (scanLoop f t lim star sign fuel k ls ll acc).head? = acc.head? := by
  intro fuel
  induction fuel with
  | zero =>
    intro k ls ll acc _
    rw [scanLoop_zero]
  | succ n ih =>
    intro k ls ll acc hacc
    rw [scanLoop_succ]
    have happ : (acc ++ [scanItem f star sign k ll]).head? = acc.head? := by
      rcases acc with _ | ⟨a, as⟩
      · exact absurd rfl hacc
      · rfl
    by_cases hc : truncQ (f k / 30) = t ∧ ls ≠ t
    · rw [if_pos hc]
      by_cases hl : lim ≤ (acc ++ [scanItem f star sign k ll]).length
      · rw [if_pos hl, happ]
      · rw [if_neg hl, ih _ _ _ _ (by simp), happ]
    · rw [if_neg hc]
      exact ih _ _ _ _ hacc

/-- An element of the scan output is either inherited from the accumulator
or was emitted on the day its bucket equalled the target while the previous
day's bucket (= the loop's `last_sign_id` state) did not. -/
theorem scanLoop_entry_changes (f : ℕ → ℚ) (t : ℤ) (lim : ℕ) (star sign : String) :
    ∀ (fuel k : ℕ) (ls : ℤ) (ll : ℚ) (acc : List ConstellationSearchResult),
      (1 ≤ k → ls = truncQ (f (k - 1) / 30)) →
      ∀ ev ∈ scanLoop f t lim star sign fuel k ls ll acc,
        ev ∈ acc ∨ (truncQ (f ev.date / 30) = t ∧
          (1 ≤ ev.date → truncQ (f (ev.date - 1) / 30) ≠ t)) := by
  intro fuel
  induction fuel with
  | zero =>
    intro k ls ll acc _ ev hev
    rw [scanLoop_zero] at hev
    exact Or.inl hev
  | succ n ih =>
    intro k ls ll acc hinv ev hev
    rw [scanLoop_succ] at hev
    by_cases hc : truncQ (f k / 30) = t ∧ ls ≠ t
    · have hitem : (truncQ (f (scanItem f star sign k ll).date / 30) = t ∧
          (1 ≤ (scanItem f star sign k ll).date →
            truncQ (f ((scanItem f star sign k ll).date - 1) / 30) ≠ t)) := by
        rw [scanItem_date]
        refine ⟨hc.1, ?_⟩
        intro hk
        rw [← hinv hk]
        exact hc.2
      rw [if_pos hc] at hev
      by_cases hl : lim ≤ (acc ++ [scanItem f star sign k ll]).length
      · rw [if_pos hl] at hev
        rcases List.mem_append.mp hev with h1 | h1
        · exact Or.inl h1
        · right
          rw [List.mem_singleton.mp h1]
          exact hitem
      · rw [if_neg hl] at hev
        have hinv' : 1 ≤ k + 1 → truncQ (f k / 30) = truncQ (f (k + 1 - 1) / 30) := by
          intro _
          norm_num
        rcases ih (k + 1) _ _ _ hinv' ev hev with h1 | h1
        · rcases List.mem_append.mp h1 with h2 | h2
          · exact Or.inl h2
          · right
            rw [List.mem_singleton.mp h2]
            exact hitem
        · exact Or.inr h1
    · rw [if_neg hc] at hev
      have hinv' : 1 ≤ k + 1 → truncQ (f k / 30) = truncQ (f (k + 1 - 1) / 30) := by
        intro _
        norm_num
      exact ih (k + 1) _ _ _ hinv' ev hev

/-- An output element dated day 0, for a scan started at day 0 with an empty
accumulator, is exactly the item emitted on the very first iteration (with
`is_retrograde` computed against the seeded `last_longitude`). -/
theorem scanLoop_day0 (f : ℕ → ℚ) (t : ℤ) (lim : ℕ) (star sign : String)
    (fuel : ℕ) (ls : ℤ) (ll : ℚ) :
    ∀ ev ∈ scanLoop f t lim star sign fuel 0 ls ll [],
      ev.date = 0 → ev = scanItem f star sign 0 ll := by
  cases fuel with
  | zero =>
    intro ev hev
    rw [scanLoop_zero] at hev
    exact absurd hev (List.not_mem_nil ev)
  | succ n =>
    intro ev hev hdate
    rw [scanLoop_succ] at hev
    by_cases hc : truncQ (f 0 / 30) = t ∧ ls ≠ t
    · rw [if_pos hc] at hev
      by_cases hl : lim ≤ (([] : List ConstellationSearchResult) ++
          [scanItem f star sign 0 ll]).length
      · rw [if_pos hl] at hev
        rw [List.nil_append] at hev
        exact List.mem_singleton.mp hev
      · rw [if_neg hl] at hev
        rcases scanLoop_mem_le f t lim star sign n 1 _ _ _ ev hev with h1 | h1
        · rw [List.nil_append] at h1
          exact List.mem_singleton.mp h1
        · omega
    · rw [if_neg hc] at hev
      rcases scanLoop_mem_le f t lim star sign n 1 _ _ _ ev hev with h1 | h1
      · exact absurd h1 (List.not_mem_nil ev)
      · omega

/-! ### C2 -/

/-- Claim C2, counterexample.  With a deterministic capability that has the
body at longitude 15° (sign bucket 0, Aries) on every day — in particular
already inside the target sign on the first scanned day — the scan for
Aries over 1990 emits a `TransitEvent` dated day 0 (Jan 1, 1990): the
`last_sign_id` sentinel `-1` differs from the target index, so the first
scanned day fires, contradicting the claim that it does not. -/
theorem constellation_search_first_day_fires_cex :
    constellation_search ⟨"Mars", "Aries", 1990, 1990, 1⟩ (fun _ => 15) =
      .ok ⟨"success", [⟨0, "Mars entered Aries", [⟨"Mars", 15, "Aries", 15, false⟩]⟩]⟩ :=
  constellation_mars_aries_eval

/-- Claim C2, amended.  In the transit scan, a body whose sign bucket already
equals the target sign on the first scanned day DOES produce a
`TransitEvent` dated that day, because the previous-sign state is seeded to
the sentinel `-1`, which differs from every target index; on every later
day an event is emitted only when the sign bucket changes into the target
sign (the previous day's bucket differed from the target). -/
theorem scanLoop_first_day_fires (f : ℕ → ℚ) (target : ℤ) (limit : ℕ)
    (star sign : String) (fuel : ℕ)
    (hfuel : 1 ≤ fuel) (hlim : 1 ≤ limit) (htarget : 0 ≤ target)
    (hday0 : truncQ (f 0 / 30) = target) :
    (scanLoop f target limit star sign fuel 0 (-1) (-1) []).head? =
      some (scanItem f star sign 0 (-1)) ∧
    ∀ ev ∈ scanLoop f target limit star sign fuel 0 (-1) (-1) [],
      1 ≤ ev.date →
      truncQ (f ev.date / 30) = target ∧ truncQ (f (ev.date - 1) / 30) ≠ target := by
  obtain ⟨n, rfl⟩ : ∃ n, fuel = n + 1 := ⟨fuel - 1, by omega⟩
  have hguard : truncQ (f 0 / 30) = target ∧ (-1 : ℤ) ≠ target := ⟨hday0, by omega⟩
  constructor
  · rw [scanLoop_succ, if_pos hguard]
    by_cases hl : limit ≤
        (([] : List ConstellationSearchResult) ++ [scanItem f star sign 0 (-1)]).length
    · rw [if_pos hl, List.nil_append]
      rfl
    · rw [if_neg hl, scanLoop_head _ _ _ _ _ _ _ _ _ _ (by simp), List.nil_append]
      rfl
  · intro ev hev hev1
    rcases scanLoop_entry_changes f target limit star sign (n + 1) 0 (-1) (-1) []
        (fun h => absurd h (by omega)) ev hev with h1 | h1
    · exact absurd h1 (List.not_mem_nil ev)
    · exact ⟨h1.1, h1.2 hev1⟩

/-- Witness for the amended C2 at a concrete capability (longitude 15° every
day, target Aries). -/
theorem scanLoop_first_day_fires_witness :
    (scanLoop (fun _ => (15 : ℚ)) 0 1 "Mars" "Aries" 365 0 (-1) (-1) []).head? =
      some (scanItem (fun _ => (15 : ℚ)) "Mars" "Aries" 0 (-1)) ∧
    ∀ ev ∈ scanLoop (fun _ => (15 : ℚ)) 0 1 "Mars" "Aries" 365 0 (-1) (-1) [],
      1 ≤ ev.date →
      truncQ ((fun _ => (15 : ℚ)) ev.date / 30) = 0 ∧
      truncQ ((fun _ => (15 : ℚ)) (ev.date - 1) / 30) ≠ 0 :=
  scanLoop_first_day_fires (fun _ => (15 : ℚ)) 0 1 "Mars" "Aries" 365
    (by norm_num) (by norm_num) (by norm_num) truncQ_half

/-! ### C10 -/

/-- Claim C10.  If the capability returns only non-negative longitudes, any
`TransitEvent` emitted on the first scanned day (day offset 0 = Jan 1 of
`start_year`) carries `is_retrograde = false`: the previous-longitude state
is seeded to `-1.0` and a non-negative longitude is never below `-1.0`. -/
theorem constellation_search_day0_not_retrograde
    (input : ConstellationSearchInput) (f : ℕ → ℚ) (out : ConstellationSearchOutput)
    (hf : ∀ d, 0 ≤ f d)
    (hok : constellation_search input f = .ok out) :
    ∀ ev ∈ out.results, ev.date = 0 →
      ∀ b ∈ ev.celestial_bodies, b.is_retrograde = false := by
  unfold constellation_search at hok
  by_cases h1 : PLANET_NAMES.contains (pyLower input.star_name) = true
  · rw [if_pos h1] at hok
    by_cases h2 : (ZODIAC_SIGNS.map pyLower).contains (pyLower input.sign_name) = true
    · rw [if_pos h2] at hok
      by_cases h3 : datetimeYearOK input.start_year = true
      · rw [if_pos h3] at hok
        by_cases h4 : datetimeYearOK (input.end_year + 1) = true
        · rw [if_pos h4] at hok
          injection hok with hout
          subst hout
          intro ev hev hdate b hb
          dsimp only at hev
          have hev0 := scanLoop_day0 f
            ((ZODIAC_SIGNS.map pyLower).indexOf (pyLower input.sign_name) : ℤ)
            input.limit (pyTitle input.star_name) (pyTitle input.sign_name)
            (numDays input.start_year input.end_year) (-1) (-1) ev hev hdate
          rw [hev0] at hb
          unfold scanItem at hb
          rw [List.mem_singleton.mp hb]
          have hnot : ¬ (f 0 < -1) := by
            have := hf 0
            linarith
          simpa using hnot
        · rw [if_neg h4] at hok
          exact Except.noConfusion hok
      · rw [if_neg h3] at hok
        exact Except.noConfusion hok
    · rw [if_neg h2] at hok
      exact Except.noConfusion hok
  · rw [if_neg h1] at hok
    exact Except.noConfusion hok

/-- Witness for C10 through the concrete Mars/Aries evaluation: the body of
the day-0 event of that scan is not marked retrograde. -/
theorem constellation_search_day0_not_retrograde_witness :
    (⟨"Mars", (15 : ℚ), "Aries", 15, false⟩ : CelestialBodyPosition).is_retrograde = false :=
  constellation_search_day0_not_retrograde ⟨"Mars", "Aries", 1990, 1990, 1⟩
    (fun _ => 15)
    ⟨"success", [⟨0, "Mars entered Aries", [⟨"Mars", 15, "Aries", 15, false⟩]⟩]⟩
    (fun _ => by norm_num) constellation_mars_aries_eval
    ⟨0, "Mars entered Aries", [⟨"Mars", 15, "Aries", 15, false⟩]⟩
    (List.mem_singleton.mpr rfl) rfl
    ⟨"Mars", (15 : ℚ), "Aries", 15, false⟩
    (List.mem_singleton.mpr rfl)

/-! ### C3 -/

/-- Claim C3, counterexample.  The input Mars/Aries, `start_year = 1990`,
`end_year = 9999`, `limit = 10` satisfies every validity condition the claim
enumerates (recognized body and sign, `year_start ≤ year_end`,
`limit ∈ [1,100]`), yet the handler computes
`end_dt = datetime(end_year + 1, 1, 1)` and `datetime(10000, 1, 1)` raises
`ValueError` (`MAXYEAR` is 9999), which surfaces as an HTTP 500 error: no
success response and no events, refuting the claim as stated. -/
theorem constellation_search_year9999_cex :
    constellation_search ⟨"Mars", "Aries", 1990, 9999, 10⟩ (fun _ => (0 : ℚ)) =
        .error 500 ∧
    (1990 : ℤ) ≤ 9999 ∧ (1 : ℕ) ≤ 10 ∧ (10 : ℕ) ≤ 100 ∧
    PLANET_NAMES.contains (pyLower "Mars") = true ∧
    (ZODIAC_SIGNS.map pyLower).contains (pyLower "Aries") = true := by
  refine ⟨?_, by norm_num, by norm_num, by norm_num, rfl, rfl⟩
  unfold constellation_search
  rw [if_pos (show PLANET_NAMES.contains (pyLower "Mars") = true from rfl),
    if_pos (show (ZODIAC_SIGNS.map pyLower).contains (pyLower "Aries") = true from rfl),
    if_pos (show datetimeYearOK 1990 = true from rfl),
    if_neg (show ¬ datetimeYearOK (9999 + 1) = true by decide)]

/-- Claim C3, amended.  For every valid input (recognized body and sign,
`start_year ≤ end_year`, `limit ∈ [1,100]`) whose years additionally let
both `datetime(start_year, 1, 1)` and `datetime(end_year + 1, 1, 1)` be
constructed (`1 ≤ start_year`, `end_year ≤ 9998` — outside that range the
constructor raises `ValueError` and the request fails with a 500 error, as
the counterexample shows), and any deterministic capability returning
longitudes in `[0, 360)`, the search succeeds and returns events in
strictly ascending date order, at most `limit` of them, and every returned
body's `sign` field is the sign computed from the capability's longitude
for the event's date, which is the target sign. -/
theorem constellation_search_valid_sound (input : ConstellationSearchInput) (f : ℕ → ℚ)
    (hstar : PLANET_NAMES.contains (pyLower input.star_name) = true)
    (hsign : (ZODIAC_SIGNS.map pyLower).contains (pyLower input.sign_name) = true)
    (hys : 1 ≤ input.start_year) (hye : input.end_year ≤ 9998)
    (hrange : input.start_year ≤ input.end_year)
    (hlim1 : 1 ≤ input.limit) (hlim2 : input.limit ≤ 100)
    (hf : ∀ d, 0 ≤ f d ∧ f d < 360) :
    ∃ out, constellation_search input f = .ok out ∧
      out.status = "success" ∧
      out.results.Pairwise (fun a b => a.date < b.date) ∧
      out.results.length ≤ input.limit ∧
      ∀ ev ∈ out.results, ∀ b ∈ ev.celestial_bodies,
        b.sign = (get_sign_details (f ev.date)).1 ∧
        b.sign = ZODIAC_SIGNS.getD
          ((ZODIAC_SIGNS.map pyLower).indexOf (pyLower input.sign_name)) "" := by
  have h3 : datetimeYearOK input.start_year = true := by
    simp only [datetimeYearOK, Bool.and_eq_true, decide_eq_true_eq]
    omega
  have h4 : datetimeYearOK (input.end_year + 1) = true := by
    simp only [datetimeYearOK, Bool.and_eq_true, decide_eq_true_eq]
    omega
  have hsound := scanLoop_sound f
    ((ZODIAC_SIGNS.map pyLower).indexOf (pyLower input.sign_name) : ℤ)
    input.limit (pyTitle input.star_name) (pyTitle input.sign_name)
    (numDays input.start_year input.end_year) 0 (-1) (-1) []
    (fun ev h => absurd h (List.not_mem_nil ev))
    List.Pairwise.nil (by simpa using hlim1)
    (fun ev h => absurd h (List.not_mem_nil ev))
  refine ⟨⟨"success", scanLoop f
      ((ZODIAC_SIGNS.map pyLower).indexOf (pyLower input.sign_name) : ℤ)
      input.limit (pyTitle input.star_name) (pyTitle input.sign_name)
      (numDays input.start_year input.end_year) 0 (-1) (-1) []⟩,
    ?_, rfl, hsound.1, hsound.2.1, ?_⟩
  · unfold constellation_search
    rw [if_pos hstar, if_pos hsign, if_pos h3, if_pos h4]
  · intro ev hev b hb
    obtain ⟨hbucket, hsigns⟩ := hsound.2.2 ev hev
    refine ⟨hsigns b hb, ?_⟩
    rw [hsigns b hb]
    unfold get_sign_details
    dsimp only
    rw [pymod_eq_self (by norm_num) (hf ev.date).1 (hf ev.date).2, hbucket]
    norm_num

/-- Witness for C3 at a concrete valid input and capability. -/
theorem constellation_search_valid_sound_witness :
    ∃ out, constellation_search ⟨"Mars", "Aries", 1990, 1990, 10⟩ (fun _ => (15 : ℚ)) =
        .ok out ∧
      out.status = "success" ∧
      out.results.Pairwise (fun a b => a.date < b.date) ∧
      out.results.length ≤ (10 : ℕ) ∧
      ∀ ev ∈ out.results, ∀ b ∈ ev.celestial_bodies,
        b.sign = (get_sign_details ((fun _ => (15 : ℚ)) ev.date)).1 ∧
        b.sign = ZODIAC_SIGNS.getD
          ((ZODIAC_SIGNS.map pyLower).indexOf (pyLower "Aries")) "" :=
  constellation_search_valid_sound ⟨"Mars", "Aries", 1990, 1990, 10⟩ (fun _ => (15 : ℚ))
    rfl rfl (by norm_num) (by norm_num) (by norm_num) (by norm_num) (by norm_num)
    (fun _ => ⟨by norm_num, by norm_num⟩)

/-! ### C6 -/

/-- Claim C6.  A request with an unrecognized body name or an unrecognized
sign name fails with HTTP 400, the result carries no (partial) results, and
it is the same for every capability — i.e. the failure happens before any
ephemeris query or day iteration. -/
theorem constellation_search_invalid_name (input : ConstellationSearchInput)
    (h : PLANET_NAMES.contains (pyLower input.star_name) = false ∨
         (ZODIAC_SIGNS.map pyLower).contains (pyLower input.sign_name) = false) :
    ∀ f g : ℕ → ℚ, constellation_search input f = .error 400 ∧
      constellation_search input f = constellation_search input g := by
  have hmain : ∀ f' : ℕ → ℚ, constellation_search input f' = .error 400 := by
    intro f'
    unfold constellation_search
    rcases h with h1 | h1
    · rw [if_neg (by rw [h1]; exact Bool.false_ne_true)]
    · by_cases h2 : PLANET_NAMES.contains (pyLower input.star_name) = true
      · rw [if_pos h2, if_neg (by rw [h1]; exact Bool.false_ne_true)]
      · rw [if_neg h2]
  intro f g
  exact ⟨hmain f, (hmain f).trans (hmain g).symm⟩

/-- Witness for C6 with the unrecognized body name `"Vulcan"`. -/
theorem constellation_search_invalid_name_witness :
    constellation_search ⟨"Vulcan", "Aries", 1990, 1990, 10⟩ (fun _ => (0 : ℚ)) =
        .error 400 ∧
    constellation_search ⟨"Vulcan", "Aries", 1990, 1990, 10⟩ (fun _ => (0 : ℚ)) =
      constellation_search ⟨"Vulcan", "Aries", 1990, 1990, 10⟩ (fun _ => (1 : ℚ)) :=
  constellation_search_invalid_name ⟨"Vulcan", "Aries", 1990, 1990, 10⟩
    (Or.inl rfl) (fun _ => (0 : ℚ)) (fun _ => (1 : ℚ))

/-! ### C8 -/

/-- Claim C8, counterexample.  For the recognized names Mars/Aries with
`end_year = -4 < start_year = 2000`, `constellation_search` does NOT return
a success response with an empty result list: `datetime(end_year + 1, 1, 1)`
raises `ValueError` (`-3` is outside `datetime`'s year range `1..9999`),
which surfaces as a 500 server error. -/
theorem constellation_search_negative_year_cex :
    constellation_search ⟨"Mars", "Aries", 2000, -4, 10⟩ (fun _ => (0 : ℚ)) =
        .error 500 ∧
    (-4 : ℤ) < 2000 ∧
    PLANET_NAMES.contains (pyLower "Mars") = true ∧
    (ZODIAC_SIGNS.map pyLower).contains (pyLower "Aries") = true := by
  refine ⟨?_, by norm_num, rfl, rfl⟩
  unfold constellation_search
  rw [if_pos (show PLANET_NAMES.contains (pyLower "Mars") = true from rfl),
    if_pos (show (ZODIAC_SIGNS.map pyLower).contains (pyLower "Aries") = true from rfl),
    if_pos (show datetimeYearOK 2000 = true from rfl),
    if_neg (show ¬ datetimeYearOK (-4 + 1) = true by decide)]

/-- Claim C8, amended.  For every request with recognized body and sign names,
`end_year < start_year`, and both `datetime` constructions inside the year
range Python supports (`1 ≤ start_year ≤ 9999` and `0 ≤ end_year ≤ 9998`),
the handler performs no ephemeris query (the result is the same for every
capability) and returns a success response with an empty results list
rather than a validation error.  (Outside that year range the `datetime`
constructor raises `ValueError` and the request fails with a 500 error, as
the counterexample shows.) -/
theorem constellation_search_empty_range (input : ConstellationSearchInput)
    (hstar : PLANET_NAMES.contains (pyLower input.star_name) = true)
    (hsign : (ZODIAC_SIGNS.map pyLower).contains (pyLower input.sign_name) = true)
    (hys1 : 1 ≤ input.start_year) (hys2 : input.start_year ≤ 9999)
    (hye1 : 0 ≤ input.end_year) (hye2 : input.end_year ≤ 9998)
    (hlt : input.end_year < input.start_year) :
    ∀ f g : ℕ → ℚ,
      constellation_search input f = .ok ⟨"success", []⟩ ∧
      constellation_search input f = constellation_search input g := by
  have hnum : numDays input.start_year input.end_year = 0 := by
    unfold numDays
    rw [if_neg (by omega)]
  have hmain : ∀ f' : ℕ → ℚ, constellation_search input f' = .ok ⟨"success", []⟩ := by
    intro f'
    unfold constellation_search
    rw [if_pos hstar, if_pos hsign,
      if_pos (by simp only [datetimeYearOK, Bool.and_eq_true, decide_eq_true_eq]; omega),
      if_pos (by simp only [datetimeYearOK, Bool.and_eq_true, decide_eq_true_eq]; omega),
      hnum, scanLoop_zero]
  intro f g
  exact ⟨hmain f, (hmain f).trans (hmain g).symm⟩

/-- Witness for the amended C8 at a concrete inverted year range. -/
theorem constellation_search_empty_range_witness :
    constellation_search ⟨"Mars", "Aries", 2000, 1990, 10⟩ (fun _ => (0 : ℚ)) =
        .ok ⟨"success", []⟩ ∧
    constellation_search ⟨"Mars", "Aries", 2000, 1990, 10⟩ (fun _ => (0 : ℚ)) =
      constellation_search ⟨"Mars", "Aries", 2000, 1990, 10⟩ (fun _ => (1 : ℚ)) :=
  constellation_search_empty_range ⟨"Mars", "Aries", 2000, 1990, 10⟩ rfl rfl
    (by norm_num) (by norm_num) (by norm_num) (by norm_num) (by norm_num)
    (fun _ => (0 : ℚ)) (fun _ => (1 : ℚ))

/-! ### Chart computation (`get_chart` in `main.py`) -/

/-- The `ChartInput` pydantic model. -/
structure ChartInput where
  date : String
  time : String
  latitude : ℚ
  longitude : ℚ

/-- The `HouseCusp` pydantic model. -/
structure HouseCusp where
  house_number : ℕ
  longitude : ℚ
  sign : String
  degree_in_sign : ℚ
  deriving Repr, Inhabited

/-- The `FullChartOutput` pydantic model. -/
structure FullChartOutput where
  status : String
  date_time : String
  location : String
  planet_positions : List PlanetPosition
  house_cusps : List HouseCusp
  aspects : List Aspect

/-- The external ephemeris capability used by `get_chart`, as fallible
operations (`pyephem` raises on bad observer state or unparseable dates):
* `ascendantEclLon` — parsing `observer.date`, `observer.sidereal_time()` and
  the `Equator` → `Ecliptic` conversion, yielding
  `math.degrees(ecliptic_point.lon)`;
* `planetLon name` — `math.degrees(PlanetClass(observer).ra)`;
* `parseTimestamp` — `datetime.fromisoformat(f"{date}T{time}")`, which raises
  `ValueError` on a malformed timestamp (called once per planet iteration);
* `planetLonPrev name` — `math.degrees(PlanetClass(observer_prev).ra)` one
  minute earlier. -/
structure EphCap where
  ascendantEclLon : Except String ℚ
  planetLon : String → Except String ℚ
  parseTimestamp : Except String Unit
  planetLonPrev : String → Except String ℚ

/-- The 12 Equal-House cusps computed by `get_chart`:
`cusp_longitude = (ascendant + (i-1)*30) % 360` for houses `i = 1..12`, with
sign/degree derived via `get_sign_details` and the stored longitude rounded
to 4 decimals. -/
def house_cusps (ascendant : ℚ) : List HouseCusp :=
  (List.range 12).map fun i =>
    ⟨i + 1, round4 (pymod (ascendant + (i : ℚ) * 30) 360),
     (get_sign_details (pymod (ascendant + (i : ℚ) * 30) 360)).1,
     round4 ((get_sign_details (pymod (ascendant + (i : ℚ) * 30) 360)).2)⟩

/-- The house-assignment loop of `get_chart` (`for i in range(11)` with a
`for`/`else` that assigns house 12 when no break occurred): `fuel` counts the
remaining iterations (11 at the start), `i` the current index. -/
def findHouseGo (cusps : List HouseCusp) (planet_lon : ℚ) : ℕ → ℕ → ℕ
  | 0, _ => 12
  | fuel + 1, i =>
    if (cusps.getD i default).longitude ≤ (cusps.getD ((i + 1) % 12) default).longitude then
      if (cusps.getD i default).longitude ≤ planet_lon ∧
          planet_lon < (cusps.getD ((i + 1) % 12) default).longitude then i + 1
      else findHouseGo cusps planet_lon fuel (i + 1)
    else
      if (cusps.getD i default).longitude ≤ planet_lon ∨
          planet_lon < (cusps.getD ((i + 1) % 12) default).longitude then i + 1
      else findHouseGo cusps planet_lon fuel (i + 1)

def findHouse (cusps : List HouseCusp) (planet_lon : ℚ) : ℕ :=
  findHouseGo cusps planet_lon 11 0

/-- The body of `get_chart`'s `try:` block: compute the ascendant, the 12
Equal-House cusps, each planet's position (sign, degree, retrograde by
comparing with the longitude a minute earlier, house via the assignment
loop), then the aspects.  String formatting of the echoed date/location is
abstracted by concatenation of the inputs. -/
def chartBody (cap : EphCap) (input : ChartInput) : Except String FullChartOutput := do
  let ascendant ← cap.ascendantEclLon
  let cusps := house_cusps ascendant
  let planet_positions ← PLANET_NAMES.mapM (fun name => do
    let planet_lon ← cap.planetLon name
    let _ ← cap.parseTimestamp
    let prev_lon ← cap.planetLonPrev name
    pure (⟨pyTitle name, round4 planet_lon, (get_sign_details planet_lon).1,
      round4 ((get_sign_details planet_lon).2), decide (planet_lon < prev_lon),
      findHouse cusps planet_lon⟩ : PlanetPosition))
  pure ⟨"success", input.date ++ " " ++ input.time,
    "Lat: " ++ toString input.latitude ++ ", Lon: " ++ toString input.longitude,
    planet_positions, cusps, calculate_aspects planet_positions⟩

/-- Model of `get_chart` from `main.py`: the whole body runs inside one
`try: ... except Exception: raise HTTPException(500)`. -/
def get_chart (cap : EphCap) (input : ChartInput) : Except ℕ FullChartOutput :=
  match chartBody cap input with
  | .ok o => .ok o
  | .error _ => .error 500

/-! ### C7 -/

/-- Claim C7.  Whenever the external capability raises anywhere inside the
chart computation (in particular when the ascendant pipeline fails, e.g. on
a malformed observer date), `get_chart` fails with a single HTTP 500 and
returns no partial chart: no `.ok` payload of any kind is produced. -/
theorem get_chart_error_all_or_nothing (cap : EphCap) (input : ChartInput)
    (h : (∃ e, chartBody cap input = .error e) ∨ (∃ e, cap.ascendantEclLon = .error e)) :
    get_chart cap input = .error 500 ∧ ∀ o, get_chart cap input ≠ .ok o := by
  have herr : ∃ e, chartBody cap input = .error e := by
    rcases h with h | ⟨e, he⟩
    · exact h
    · refine ⟨e, ?_⟩
      unfold chartBody
      rw [he]
      rfl
  obtain ⟨e, he⟩ := herr
  unfold get_chart
  rw [he]
  exact ⟨rfl, fun o h' => Except.noConfusion h'⟩

/-- Witness for C7: a capability whose per-planet timestamp parse raises
(malformed timestamp) while everything else succeeds. -/
theorem get_chart_error_all_or_nothing_witness :
    get_chart ⟨.ok 10, fun _ => .ok 20, .error "Invalid isoformat string", fun _ => .ok 20⟩
        ⟨"2023-13-45", "99:99", 0, 0⟩ = .error 500 ∧
    ∀ o, get_chart ⟨.ok 10, fun _ => .ok 20, .error "Invalid isoformat string", fun _ => .ok 20⟩
        ⟨"2023-13-45", "99:99", 0, 0⟩ ≠ .ok o :=
  get_chart_error_all_or_nothing _ _
    (Or.inl ⟨"Invalid isoformat string", by rfl⟩)

/-! ### House-interval lemmas for C5 -/

/-- The half-open-interval membership test of the house-assignment loop:
`start <= lon < end` when the interval does not wrap, and
`lon >= start or lon < end` when it wraps past 360° → 0°. -/
def inIv (a b x : ℚ) : Prop :=
  if a ≤ b then a ≤ x ∧ x < b else (a ≤ x ∨ x < b)

theorem pymod_720 {x : ℚ} (h0 : 0 ≤ x) (h1 : x < 720) :
    pymod x 360 = if x < 360 then x else x - 360 := by
  split_ifs with h
  · exact pymod_eq_self (by norm_num) h0 h
  · have hb := pymod_eq_of_bounds x 360 1 (by norm_num)
      (by push_cast; linarith) (by push_cast; linarith)
    simpa using hb

theorem pymod_neg360 {x : ℚ} (h0 : -360 < x) (h1 : x < 0) : pymod x 360 = x + 360 := by
  have hb := pymod_eq_of_bounds x 360 (-1) (by norm_num)
    (by push_cast; linarith) (by push_cast; linarith)
  rw [hb]
  ring

theorem floor_div30_eq_iff (θ : ℚ) (j : ℤ) :
    ⌊θ / 30⌋ = j ↔ (30 * (j : ℚ) ≤ θ ∧ θ < 30 * ((j : ℚ) + 1)) := by
  rw [Int.floor_eq_iff]
  rw [le_div_iff₀ (by norm_num : (0:ℚ) < 30), div_lt_iff₀ (by norm_num : (0:ℚ) < 30)]
  constructor <;> rintro ⟨u, v⟩ <;> exact ⟨by linarith, by linarith⟩

theorem house_cusps_getD (asc : ℚ) (i : ℕ) (h : i < 12) :
    ((house_cusps asc).getD i default).longitude =
      round4 (pymod (asc + (i : ℚ) * 30) 360) := by
  interval_cases i <;> rfl

/-- The first stored cusp is the (rounded, normalized) ascendant. -/
theorem cusp0_round (asc : ℚ) :
    round4 (pymod (asc + ((0 : ℕ) : ℚ) * 30) 360) = round4 (pymod asc 360) := by
  norm_num

/-- Under the no-rounding-to-360 hypothesis, the stored cusp longitudes are
the exact 30°-steps from the first stored cusp, normalized modulo 360. -/
theorem cusp_norm (asc : ℚ)
    (H : ∀ j : ℕ, j < 12 → round4 (pymod (asc + (j : ℚ) * 30) 360) < 360) :
    ∀ j : ℕ, j < 12 → round4 (pymod (asc + (j : ℚ) * 30) 360) =
      pymod (round4 (pymod asc 360) + (j : ℚ) * 30) 360 := by
  intro j hj
  have hy0 : 0 ≤ pymod asc 360 := pymod_nonneg asc (by norm_num)
  have hy1 : pymod asc 360 < 360 := pymod_lt asc (by norm_num)
  have hc00 : 0 ≤ round4 (pymod asc 360) := round_to_nonneg 4 hy0
  have hc01 : round4 (pymod asc 360) < 360 := by
    have h0 := H 0 (by norm_num)
    rw [cusp0_round] at h0
    exact h0
  have hjq : (j : ℚ) ≤ 11 := by exact_mod_cast Nat.lt_succ_iff.mp hj
  have hjq0 : (0 : ℚ) ≤ (j : ℚ) := by positivity
  have hdecomp : asc + (j : ℚ) * 30 = (pymod asc 360 + (j : ℚ) * 30) + 360 * (⌊asc / 360⌋ : ℚ) := by
    unfold pymod
    ring
  have hstep1 : pymod (asc + (j : ℚ) * 30) 360 = pymod (pymod asc 360 + (j : ℚ) * 30) 360 := by
    rw [hdecomp, pymod_add_int_mul]
  have hcast : (j : ℚ) * 30 = 30 * (((j : ℤ) : ℚ)) := by push_cast; ring
  by_cases hcase : pymod asc 360 + (j : ℚ) * 30 < 360
  · have hself : pymod (pymod asc 360 + (j : ℚ) * 30) 360 = pymod asc 360 + (j : ℚ) * 30 :=
      pymod_eq_self (by norm_num) (by linarith) hcase
    have hlhs : round4 (pymod (asc + (j : ℚ) * 30) 360) =
        round4 (pymod asc 360) + (j : ℚ) * 30 := by
      rw [hstep1, hself, hcast, round4_add_mul30]
    have hub : round4 (pymod asc 360) + (j : ℚ) * 30 < 360 := by
      rw [← hlhs]
      exact H j hj
    rw [hlhs, pymod_eq_self (by norm_num) (by linarith) hub]
  · push_neg at hcase
    have hof : pymod (pymod asc 360 + (j : ℚ) * 30) 360 =
        pymod asc 360 + (j : ℚ) * 30 - 360 := by
      have hb := pymod_eq_of_bounds (pymod asc 360 + (j : ℚ) * 30) 360 1 (by norm_num)
        (by push_cast; linarith) (by push_cast; linarith)
      simpa using hb
    have hcast2 : (j : ℚ) * 30 - 360 = 30 * (((j : ℤ) - 12 : ℤ) : ℚ) := by
      push_cast
      ring
    have hlhs : round4 (pymod (asc + (j : ℚ) * 30) 360) =
        round4 (pymod asc 360) + (j : ℚ) * 30 - 360 := by
      rw [hstep1, hof]
      have harg : pymod asc 360 + (j : ℚ) * 30 - 360 =
          pymod asc 360 + 30 * (((j : ℤ) - 12 : ℤ) : ℚ) := by
        push_cast
        ring
      rw [harg, round4_add_mul30]
      push_cast
      ring
    have hlb : 0 ≤ round4 (pymod asc 360) + (j : ℚ) * 30 - 360 := by
      rw [← hlhs]
      apply round_to_nonneg
      rw [hstep1, hof]
      linarith
    have hub : round4 (pymod asc 360) + (j : ℚ) * 30 - 360 < 360 := by
      rw [← hlhs]
      exact H j hj
    have hb := pymod_eq_of_bounds (round4 (pymod asc 360) + (j : ℚ) * 30) 360 1
      (by norm_num) (by push_cast; linarith) (by push_cast; linarith)
    rw [hlhs, hb]
    push_cast
    ring

/-- Membership in the `j`-th house interval (start `c0 + j*30` and end
`c0 + (j+1)*30`, both normalized mod 360, with the loop's wrap test) holds
exactly when the rotated longitude `(lon - c0) mod 360` falls in
`[30j, 30(j+1))`. -/
theorem interval_mem_iff (c0 lon : ℚ) (hc00 : 0 ≤ c0) (hc01 : c0 < 360)
    (hl0 : 0 ≤ lon) (hl1 : lon < 360) (j : ℕ) (hj : j ≤ 11) :
    inIv (pymod (c0 + (j : ℚ) * 30) 360) (pymod (c0 + ((j : ℚ) + 1) * 30) 360) lon ↔
      ⌊pymod (lon - c0) 360 / 30⌋ = (j : ℤ) := by
  have hjq : (j : ℚ) ≤ 11 := by exact_mod_cast hj
  have hjq0 : (0 : ℚ) ≤ (j : ℚ) := by positivity
  rw [floor_div30_eq_iff]
  push_cast
  by_cases hcA : c0 + (j : ℚ) * 30 < 360
  · have ha : pymod (c0 + (j : ℚ) * 30) 360 = c0 + (j : ℚ) * 30 :=
      pymod_eq_self (by norm_num) (by linarith) hcA
    by_cases hcB : c0 + ((j : ℚ) + 1) * 30 < 360
    · have hb : pymod (c0 + ((j : ℚ) + 1) * 30) 360 = c0 + ((j : ℚ) + 1) * 30 :=
        pymod_eq_self (by norm_num) (by linarith) hcB
      rw [ha, hb]
      unfold inIv
      rw [if_pos (by linarith)]
      by_cases hcT : 0 ≤ lon - c0
      · rw [pymod_eq_self (by norm_num) hcT (by linarith)]
        constructor
        · rintro ⟨u, v⟩
          exact ⟨by linarith, by linarith⟩
        · rintro ⟨u, v⟩
          exact ⟨by linarith, by linarith⟩
      · push_neg at hcT
        rw [pymod_neg360 (by linarith) (by linarith)]
        constructor
        · rintro ⟨u, v⟩
          exfalso
          linarith
        · rintro ⟨u, v⟩
          exfalso
          linarith
    · push_neg at hcB
      have hb : pymod (c0 + ((j : ℚ) + 1) * 30) 360 = c0 + ((j : ℚ) + 1) * 30 - 360 := by
        have hbb := pymod_eq_of_bounds (c0 + ((j : ℚ) + 1) * 30) 360 1 (by norm_num)
          (by push_cast; linarith) (by push_cast; linarith)
        simpa using hbb
      rw [ha, hb]
      unfold inIv
      rw [if_neg (by linarith)]
      by_cases hcT : 0 ≤ lon - c0
      · rw [pymod_eq_self (by norm_num) hcT (by linarith)]
        constructor
        · rintro (u | u)
          · exact ⟨by linarith, by linarith⟩
          · exfalso
            linarith
        · rintro ⟨u, v⟩
          exact Or.inl (by linarith)
      · push_neg at hcT
        rw [pymod_neg360 (by linarith) (by linarith)]
        constructor
        · rintro (u | u)
          · exfalso
            linarith
          · exact ⟨by linarith, by linarith⟩
        · rintro ⟨u, v⟩
          exact Or.inr (by linarith)
  · push_neg at hcA
    have hcB : ¬ (c0 + ((j : ℚ) + 1) * 30 < 360) := by
      push_neg
      linarith
    push_neg at hcB
    have ha : pymod (c0 + (j : ℚ) * 30) 360 = c0 + (j : ℚ) * 30 - 360 := by
      have haa := pymod_eq_of_bounds (c0 + (j : ℚ) * 30) 360 1 (by norm_num)
        (by push_cast; linarith) (by push_cast; linarith)
      simpa using haa
    have hb : pymod (c0 + ((j : ℚ) + 1) * 30) 360 = c0 + ((j : ℚ) + 1) * 30 - 360 := by
      have hbb := pymod_eq_of_bounds (c0 + ((j : ℚ) + 1) * 30) 360 1 (by norm_num)
        (by push_cast; linarith) (by push_cast; linarith)
      simpa using hbb
    rw [ha, hb]
    unfold inIv
    rw [if_pos (by linarith)]
    by_cases hcT : 0 ≤ lon - c0
    · rw [pymod_eq_self (by norm_num) hcT (by linarith)]
      constructor
      · rintro ⟨u, v⟩
        exfalso
        linarith
      · rintro ⟨u, v⟩
        exfalso
        linarith
    · push_neg at hcT
      rw [pymod_neg360 (by linarith) (by linarith)]
      constructor
      · rintro ⟨u, v⟩
        exact ⟨by linarith, by linarith⟩
      · rintro ⟨u, v⟩
        exact ⟨by linarith, by linarith⟩

/-- Consecutive normalized cusp longitudes are exactly 30° apart mod 360. -/
theorem cusp_spacing (c0 : ℚ) (hc00 : 0 ≤ c0) (hc01 : c0 < 360) (j : ℕ) (hj : j ≤ 11) :
    pymod (pymod (c0 + ((j : ℚ) + 1) * 30) 360 - pymod (c0 + (j : ℚ) * 30) 360) 360 = 30 := by
  have hjq : (j : ℚ) ≤ 11 := by exact_mod_cast hj
  have hjq0 : (0 : ℚ) ≤ (j : ℚ) := by positivity
  by_cases hcA : c0 + (j : ℚ) * 30 < 360
  · have ha : pymod (c0 + (j : ℚ) * 30) 360 = c0 + (j : ℚ) * 30 :=
      pymod_eq_self (by norm_num) (by linarith) hcA
    by_cases hcB : c0 + ((j : ℚ) + 1) * 30 < 360
    · have hb : pymod (c0 + ((j : ℚ) + 1) * 30) 360 = c0 + ((j : ℚ) + 1) * 30 :=
        pymod_eq_self (by norm_num) (by linarith) hcB
      rw [ha, hb]
      have hd : c0 + ((j : ℚ) + 1) * 30 - (c0 + (j : ℚ) * 30) = 30 := by ring
      rw [hd]
      exact pymod_eq_self (by norm_num) (by norm_num) (by norm_num)
    · push_neg at hcB
      have hb : pymod (c0 + ((j : ℚ) + 1) * 30) 360 = c0 + ((j : ℚ) + 1) * 30 - 360 := by
        have hbb := pymod_eq_of_bounds (c0 + ((j : ℚ) + 1) * 30) 360 1 (by norm_num)
          (by push_cast; linarith) (by push_cast; linarith)
        simpa using hbb
      rw [ha, hb]
      have hd : c0 + ((j : ℚ) + 1) * 30 - 360 - (c0 + (j : ℚ) * 30) = -330 := by ring
      rw [hd]
      rw [pymod_neg360 (by norm_num) (by norm_num)]
      norm_num
  · push_neg at hcA
    have hcB : (360 : ℚ) ≤ c0 + ((j : ℚ) + 1) * 30 := by linarith
    have ha : pymod (c0 + (j : ℚ) * 30) 360 = c0 + (j : ℚ) * 30 - 360 := by
      have haa := pymod_eq_of_bounds (c0 + (j : ℚ) * 30) 360 1 (by norm_num)
        (by push_cast; linarith) (by push_cast; linarith)
      simpa using haa
    have hb : pymod (c0 + ((j : ℚ) + 1) * 30) 360 = c0 + ((j : ℚ) + 1) * 30 - 360 := by
      have hbb := pymod_eq_of_bounds (c0 + ((j : ℚ) + 1) * 30) 360 1 (by norm_num)
        (by push_cast; linarith) (by push_cast; linarith)
      simpa using hbb
    rw [ha, hb]
    have hd : c0 + ((j : ℚ) + 1) * 30 - 360 - (c0 + (j : ℚ) * 30 - 360) = 30 := by ring
    rw [hd]
    exact pymod_eq_self (by norm_num) (by norm_num) (by norm_num)

instance inIv_dec (a b x : ℚ) : Decidable (inIv a b x) := by
  unfold inIv
  infer_instance

/-- One unrolled step of the house-assignment loop, phrased through `inIv`. -/
theorem findHouseGo_step (cusps : List HouseCusp) (lon : ℚ) (fuel i : ℕ) :
    findHouseGo cusps lon (fuel + 1) i =
      if inIv ((cusps.getD i default).longitude)
          ((cusps.getD ((i + 1) % 12) default).longitude) lon then i + 1
      else findHouseGo cusps lon fuel (i + 1) := by
  unfold inIv
  by_cases hab : (cusps.getD i default).longitude ≤
      (cusps.getD ((i + 1) % 12) default).longitude
  · simp only [findHouseGo]
    rw [if_pos hab]
    exact (if_congr (by rw [if_pos hab]) rfl rfl).symm
  · simp only [findHouseGo]
    rw [if_neg hab]
    exact (if_congr (by rw [if_neg hab]) rfl rfl).symm

/-- If the membership test singles out index `n`, the loop started at any
`i ≤ n` returns house `n + 1` (house 12 arising from the `for`/`else` when
`n = 11`). -/
theorem findHouseGo_spec (cusps : List HouseCusp) (lon : ℚ) (n : ℕ) (hn : n ≤ 11)
    (htest : ∀ i : ℕ, i ≤ 10 →
      (inIv ((cusps.getD i default).longitude)
        ((cusps.getD ((i + 1) % 12) default).longitude) lon ↔ i = n)) :
    ∀ fuel i, fuel + i = 11 → i ≤ n → findHouseGo cusps lon fuel i = n + 1 := by
  intro fuel
  induction fuel with
  | zero =>
    intro i h0 hin
    simp only [findHouseGo]
    omega
  | succ m ih =>
    intro i h0 hin
    rw [findHouseGo_step]
    by_cases hi : i = n
    · rw [if_pos ((htest i (by omega)).mpr hi), hi]
    · rw [if_neg (fun hmem => hi ((htest i (by omega)).mp hmem))]
      exact ih (i + 1) (by omega) (by omega)

/-! ### C5 -/

/-- Claim C5.  In `get_chart`'s Equal-House computation: the stored cusps
start at the (normalized, 4-decimal-rounded) ascendant and consecutive
cusps are spaced exactly 30° apart modulo 360; and for every body longitude
in `[0, 360)` the house-assignment loop returns a house number `h ∈ [1,12]`
whose half-open interval `[cusp_h, cusp_{h+1})` (with the loop's wraparound
test at 360°→0°) contains the longitude — and `h` is the unique such house.
The hypothesis `H` excludes the degenerate float corner in which a stored
cusp rounds to exactly `360.0`. -/
theorem get_chart_equal_houses (asc lon : ℚ)
    (H : ∀ j : ℕ, j < 12 → ((house_cusps asc).getD j default).longitude < 360)
    (hl0 : 0 ≤ lon) (hl1 : lon < 360) :
    ((house_cusps asc).getD 0 default).longitude = round4 (pymod asc 360) ∧
    (∀ j : ℕ, j < 12 →
      pymod (((house_cusps asc).getD ((j + 1) % 12) default).longitude -
        ((house_cusps asc).getD j default).longitude) 360 = 30) ∧
    1 ≤ findHouse (house_cusps asc) lon ∧ findHouse (house_cusps asc) lon ≤ 12 ∧
    inIv (((house_cusps asc).getD (findHouse (house_cusps asc) lon - 1) default).longitude)
      (((house_cusps asc).getD (findHouse (house_cusps asc) lon % 12) default).longitude)
      lon ∧
    (∀ j : ℕ, j < 12 →
      inIv (((house_cusps asc).getD j default).longitude)
        (((house_cusps asc).getD ((j + 1) % 12) default).longitude) lon →
      j = findHouse (house_cusps asc) lon - 1) := by
  have H' : ∀ j : ℕ, j < 12 → round4 (pymod (asc + (j : ℚ) * 30) 360) < 360 := by
    intro j hj
    rw [← house_cusps_getD asc j hj]
    exact H j hj
  have hnorm := cusp_norm asc H'
  have hc00 : 0 ≤ round4 (pymod asc 360) :=
    round_to_nonneg 4 (pymod_nonneg asc (by norm_num))
  have hc01 : round4 (pymod asc 360) < 360 := by
    have h0 := H' 0 (by norm_num)
    rwa [cusp0_round] at h0
  have hcusp : ∀ j : ℕ, j < 12 → ((house_cusps asc).getD j default).longitude =
      pymod (round4 (pymod asc 360) + (j : ℚ) * 30) 360 := by
    intro j hj
    rw [house_cusps_getD asc j hj, hnorm j hj]
  set c0 := round4 (pymod asc 360) with hc0def
  have hθ0 : 0 ≤ pymod (lon - c0) 360 := pymod_nonneg _ (by norm_num)
  have hθ1 : pymod (lon - c0) 360 < 360 := pymod_lt _ (by norm_num)
  have hm0 : 0 ≤ ⌊pymod (lon - c0) 360 / 30⌋ := Int.floor_nonneg.mpr (by positivity)
  have hm1 : ⌊pymod (lon - c0) 360 / 30⌋ ≤ 11 := by
    have h12 : ⌊pymod (lon - c0) 360 / 30⌋ < 12 := by
      apply Int.floor_lt.mpr
      rw [div_lt_iff₀ (by norm_num : (0:ℚ) < 30)]
      push_cast
      linarith
    omega
  have hmn : ((⌊pymod (lon - c0) 360 / 30⌋.toNat : ℕ) : ℤ) = ⌊pymod (lon - c0) 360 / 30⌋ :=
    Int.toNat_of_nonneg hm0
  have hn11 : ⌊pymod (lon - c0) 360 / 30⌋.toNat ≤ 11 := by omega
  have htest : ∀ i : ℕ, i ≤ 10 →
      (inIv ((house_cusps asc).getD i default).longitude
        (((house_cusps asc).getD ((i + 1) % 12) default).longitude) lon ↔
        i = ⌊pymod (lon - c0) 360 / 30⌋.toNat) := by
    intro i hi
    have hi1 : (i + 1) % 12 = i + 1 := Nat.mod_eq_of_lt (by omega)
    rw [hi1, hcusp i (by omega), hcusp (i + 1) (by omega)]
    have hcast : ((i + 1 : ℕ) : ℚ) = (i : ℚ) + 1 := by push_cast; ring
    rw [hcast, interval_mem_iff c0 lon hc00 hc01 hl0 hl1 i (by omega)]
    omega
  have hfh : findHouse (house_cusps asc) lon = ⌊pymod (lon - c0) 360 / 30⌋.toNat + 1 :=
    findHouseGo_spec (house_cusps asc) lon _ hn11 htest 11 0 (by omega) (by omega)
  refine ⟨?_, ?_, ?_, ?_, ?_, ?_⟩
  · rw [house_cusps_getD asc 0 (by norm_num), cusp0_round]
  · intro j hj
    by_cases hj11 : j = 11
    · subst hj11
      rw [show (11 + 1) % 12 = 0 from rfl, hcusp 0 (by norm_num), hcusp 11 (by norm_num)]
      have he : pymod (c0 + ((0 : ℕ) : ℚ) * 30) 360 =
          pymod (c0 + ((11 : ℚ) + 1) * 30) 360 := by
        have h1 : c0 + ((11 : ℚ) + 1) * 30 = c0 + 360 * ((1 : ℤ) : ℚ) := by
          push_cast
          ring
        rw [h1, pymod_add_int_mul]
        norm_num
      rw [he]
      have hs := cusp_spacing c0 hc00 hc01 11 (by norm_num)
      have hcast11 : ((11 : ℕ) : ℚ) = (11 : ℚ) := by norm_num
      rw [hcast11]
      exact hs
    · have hj1 : (j + 1) % 12 = j + 1 := Nat.mod_eq_of_lt (by omega)
      rw [hj1, hcusp j (by omega), hcusp (j + 1) (by omega)]
      have hcast : ((j + 1 : ℕ) : ℚ) = (j : ℚ) + 1 := by push_cast; ring
      rw [hcast]
      exact cusp_spacing c0 hc00 hc01 j (by omega)
  · rw [hfh]
    omega
  · rw [hfh]
    omega
  · rw [hfh, Nat.add_sub_cancel]
    by_cases hn' : ⌊pymod (lon - c0) 360 / 30⌋.toNat = 11
    · rw [hn']
      rw [show (11 + 1) % 12 = 0 from rfl, hcusp 11 (by norm_num), hcusp 0 (by norm_num)]
      have he : pymod (c0 + ((0 : ℕ) : ℚ) * 30) 360 =
          pymod (c0 + ((11 : ℚ) + 1) * 30) 360 := by
        have h1 : c0 + ((11 : ℚ) + 1) * 30 = c0 + 360 * ((1 : ℤ) : ℚ) := by
          push_cast
          ring
        rw [h1, pymod_add_int_mul]
        norm_num
      rw [he]
      have hcast11 : ((11 : ℕ) : ℚ) = (11 : ℚ) := by norm_num
      rw [← hcast11]
      have hmem := (interval_mem_iff c0 lon hc00 hc01 hl0 hl1 11 (by norm_num)).mpr
        (by omega)
      have hcast11' : (((11 : ℕ) : ℚ) + 1) = ((11 : ℚ) + 1) := by norm_num
      rw [hcast11'] at hmem
      rw [hcast11]
      exact hmem
    · have hlt : ⌊pymod (lon - c0) 360 / 30⌋.toNat + 1 < 12 := by omega
      rw [Nat.mod_eq_of_lt hlt, hcusp _ (by omega), hcusp _ (by omega)]
      have hcast : ((⌊pymod (lon - c0) 360 / 30⌋.toNat + 1 : ℕ) : ℚ) =
          ((⌊pymod (lon - c0) 360 / 30⌋.toNat : ℕ) : ℚ) + 1 := by
        push_cast
        ring
      rw [hcast]
      exact (interval_mem_iff c0 lon hc00 hc01 hl0 hl1 _ (by omega)).mpr (by omega)
  · intro j hj hmem
    rw [hfh, Nat.add_sub_cancel]
    by_cases hj11 : j = 11
    · subst hj11
      rw [show (11 + 1) % 12 = 0 from rfl, hcusp 11 (by norm_num), hcusp 0 (by norm_num)]
        at hmem
      have he : pymod (c0 + ((0 : ℕ) : ℚ) * 30) 360 =
          pymod (c0 + (((11 : ℕ) : ℚ) + 1) * 30) 360 := by
        have h1 : c0 + (((11 : ℕ) : ℚ) + 1) * 30 = c0 + 360 * ((1 : ℤ) : ℚ) := by
          push_cast
          ring
        rw [h1, pymod_add_int_mul]
        norm_num
      rw [he] at hmem
      have h11 := (interval_mem_iff c0 lon hc00 hc01 hl0 hl1 11 (by norm_num)).mp hmem
      omega
    · have hres := (htest j (by omega)).mp hmem
      omega

/-- Witness for C5 at ascendant 10° and body longitude 50°. -/
theorem get_chart_equal_houses_witness :
    ((house_cusps 10).getD 0 default).longitude = round4 (pymod 10 360) ∧
    (∀ j : ℕ, j < 12 →
      pymod (((house_cusps 10).getD ((j + 1) % 12) default).longitude -
        ((house_cusps 10).getD j default).longitude) 360 = 30) ∧
    1 ≤ findHouse (house_cusps 10) 50 ∧ findHouse (house_cusps 10) 50 ≤ 12 ∧
    inIv (((house_cusps 10).getD (findHouse (house_cusps 10) 50 - 1) default).longitude)
      (((house_cusps 10).getD (findHouse (house_cusps 10) 50 % 12) default).longitude)
      50 ∧
    (∀ j : ℕ, j < 12 →
      inIv (((house_cusps 10).getD j default).longitude)
        (((house_cusps 10).getD ((j + 1) % 12) default).longitude) 50 →
      j = findHouse (house_cusps 10) 50 - 1) :=
  get_chart_equal_houses 10 50
    (by
      intro j hj
      rw [house_cusps_getD 10 j hj]
      interval_cases j <;> norm_num [round4, round_to, rnd, pymod])
    (by norm_num) (by norm_num)

end AstroApi
